import Mathlib

/-!
Formal model of the scraper-service contact-extraction and Google-Maps
orchestration pipeline.

The Python source is embedded shallowly:
* `website_enrichment.py` (class `WebsiteEnrichment`) becomes pure functions
  over a `Page` record that holds the parsed artefacts of one fetched page
  (anchor hrefs, regex match lists, raw markup, address blocks).
* `scrapers/google_maps_optimized.py` (class `GoogleMapsScraperOptimized`)
  becomes a fuel-indexed scroll-loop over an abstract link feed, plus a
  windowed batch extractor over an abstract per-URL outcome.

Network fetches, BeautifulSoup parsing and the generic regex engine are
external collaborators; their outputs appear as fields of `Page` or as
oracle functions.  Everything the Python code itself computes (filters,
dedup, caps, merging, the scroll state machine, the batching, the score)
is translated directly.  String work is done on `List Char` (`String.data`)
so that every definition reduces in the kernel.
-/

/-- Characters of a string lower-cased; models Python `str.lower()` on the
ASCII data handled by the scraper. -/
def lowerStr (s : String) : String := String.mk (s.data.map Char.toLower)

/-- Membership of `pat` as a contiguous substring of `l`; models Python
`pat in s`. -/
def isSubC (pat : List Char) : List Char → Bool
  | [] => pat.isEmpty
  | c :: rest => pat.isPrefixOf (c :: rest) || isSubC pat rest

/-- Python `str.strip()`: drop whitespace from both ends. -/
def trimC (l : List Char) : List Char :=
  ((l.dropWhile Char.isWhitespace).reverse.dropWhile Char.isWhitespace).reverse

/-- Fuel-indexed body of `replaceC`; every step consumes at least one
character, so `l.length` fuel always finishes the text. -/
def replaceCF (pat : List Char) : Nat → List Char → List Char
  | 0, l => l
  | _ + 1, [] => []
  | fuel + 1, c :: rest =>
    if pat.isEmpty = false ∧ pat.isPrefixOf (c :: rest) = true then
      replaceCF pat fuel ((c :: rest).drop pat.length)
    else
      c :: replaceCF pat fuel rest

/-- Python `str.replace(pat, '')` for a non-empty `pat`: remove all
non-overlapping occurrences, scanning left to right. -/
def replaceC (pat : List Char) (l : List Char) : List Char :=
  replaceCF pat l.length l

/-- The `excluded_email_patterns` list of `WebsiteEnrichment.__init__`
(generic/spam address fragments; a match anywhere rejects the email). -/
def excluded_email_patterns : List String :=
  [ "example.com", "yourdomain.com", "domain.com", "test.com", "email.com",
    "noreply", "no-reply", "donotreply", "privacy@", "legal@", "abuse@",
    "postmaster@", "admin@", "webmaster@", "info@example", "contact@example",
    "support@example" ]

/-- The `spam_tlds` list of `WebsiteEnrichment._is_business_email`. -/
def spam_tlds : List String := [".tk", ".ml", ".ga", ".cf", ".gq"]

/-- `WebsiteEnrichment._is_business_email`: reject when any excluded pattern
occurs in the lower-cased address or the address ends in a low-trust TLD. -/
def is_business_email (email : String) : Bool :=
  let el := lowerStr email
  if excluded_email_patterns.any (fun p => isSubC p.data el.data) then false
  else if spam_tlds.any (fun t => List.isSuffixOf t.data el.data) then false
  else true

/-- Python `email.split('@')[1]`: the segment between the first `@` and the
next `@` (or the end).  Only evaluated when the email contains an `@`. -/
def afterAtC (l : List Char) : List Char :=
  ((l.dropWhile (fun c => c ≠ '@')).drop 1).takeWhile (fun c => c ≠ '@')

/-- `WebsiteEnrichment._is_valid_email`: non-empty, length in `[5, 100]`,
contains an `@`, and the part after the first `@` contains a dot. -/
def is_valid_email (email : String) : Bool :=
  if email.data.isEmpty || email.data.length < 5 then false
  else if !(email.data.contains '@') || !((afterAtC email.data).contains '.') then false
  else if 100 < email.data.length then false
  else true

/-- Helper for Python `str.split()` (split on whitespace runs, dropping empty
pieces); `cur` holds the characters of the word being read, reversed. -/
def splitWsAux (cur : List Char) : List Char → List (List Char)
  | [] => if cur.isEmpty then [] else [cur.reverse]
  | c :: rest =>
    if c.isWhitespace then
      if cur.isEmpty then splitWsAux [] rest else cur.reverse :: splitWsAux [] rest
    else
      splitWsAux (c :: cur) rest

/-- Python `str.split()` with no argument. -/
def splitWsC (l : List Char) : List (List Char) := splitWsAux [] l

/-- Python `' '.join(words)`. -/
def joinSpaceC : List (List Char) → List Char
  | [] => []
  | [w] => w
  | w :: ws => w ++ ' ' :: joinSpaceC ws

/-- `WebsiteEnrichment._clean_phone`: strip, then collapse internal
whitespace runs to single spaces (`' '.join(phone.split())`). -/
def clean_phone (phone : String) : String :=
  String.mk (joinSpaceC (splitWsC (trimC phone.data)))

/-- Keep-filter applied to every phone candidate: the cleaned string must be
non-empty and at least 10 characters long (`if phone and len(phone) >= 10`). -/
def phoneKeep (raw : String) : Option String :=
  let ph := clean_phone raw
  if ph.data ≠ [] ∧ 10 ≤ ph.data.length then some ph else none

/-- Deduplication keeping the first occurrence; models the Python `set`
accumulation used by the extractors (`seen` lists the already-kept values). -/
def pyDedupAux (seen : List String) : List String → List String
  | [] => []
  | x :: xs => if x ∈ seen then pyDedupAux seen xs else x :: pyDedupAux (x :: seen) xs

/-- Deduplication of a candidate list, as performed by collecting into a
Python `set` (membership and cardinality agree with the set; order is the
first-occurrence order, a deterministic stand-in for set iteration order). -/
def pyDedup (l : List String) : List String := pyDedupAux [] l

/-- A `\w` character of the address regexes: `[a-zA-Z0-9_]`. -/
def isWordChar (c : Char) : Bool := c.isAlphanum || c == '_'

/-- After a street-number digit: at least one whitespace, then (skipping
further whitespace, which `\s+` absorbs) a word character. -/
def wsThenWordC : List Char → Bool
  | [] => false
  | c :: rest =>
    c.isWhitespace &&
      (match rest.dropWhile Char.isWhitespace with
       | d :: _ => isWordChar d
       | [] => false)

/-- Existence of a match of `\d{1,5}\s+\w+` (`re.search`): some digit is
followed by whitespace and then a word character.  A single digit already
satisfies `\d{1,5}` and a single word character satisfies `\w+`, so match
existence reduces to this scan. -/
def hasStreetTokenC : List Char → Bool
  | [] => false
  | c :: rest => (c.isDigit && wsThenWordC rest) || hasStreetTokenC rest

/-- Existence of a match of `\d{5}` (`re.search`): five consecutive digits. -/
def hasFiveDigitsC : List Char → Bool
  | [] => false
  | c :: rest =>
    (c.isDigit && (rest.take 4).length == 4 && (rest.take 4).all Char.isDigit)
      || hasFiveDigitsC rest

/-- Python `str.strip(', ')`: remove commas and spaces from both ends. -/
def stripCommaSpaceC (l : List Char) : List Char :=
  ((l.dropWhile (fun c => c == ',' || c == ' ')).reverse.dropWhile
      (fun c => c == ',' || c == ' ')).reverse

/-- One `schema.org` postal address parsed out of a JSON-LD script block,
with the four `.get(..., '')` fields of `_extract_addresses`. -/
structure LdAddress where
  streetAddress : String
  addressLocality : String
  addressRegion : String
  postalCode : String
deriving DecidableEq

/-- The comma-joined full address built by `_extract_addresses` from a
JSON-LD block and then stripped of leading/trailing commas and spaces. -/
def ldFullAddress (a : LdAddress) : String :=
  String.mk (stripCommaSpaceC
    (a.streetAddress.data ++ (", ").data ++ a.addressLocality.data ++ (", ").data
      ++ a.addressRegion.data ++ (" ").data ++ a.postalCode.data))

/-- One fetched page, reduced to the artefacts the extractors read.  The
fetching, HTML parsing and the generic regex engine are external
collaborators, so regex match lists appear here as data:
* `anchorHrefs` — the `href` of every `<a href=...>` (soup.find_all);
* `textEmails` / `sourceEmails` — matches of `email_pattern` in the page's
  visible text resp. in the raw markup;
* `sectionEmails` — matches of `email_pattern` in the text of
  contact/footer/header-classed sections, concatenated in section order;
* `textPhones` / `sectionPhones` — matches of the four phone patterns on
  the visible text resp. the contact-like sections, concatenated in the
  pattern-then-occurrence order the nested Python loops produce;
* `html` — the raw markup (scanned directly for social profile patterns);
* `addressTexts` — the text of each address/location/office-classed block;
* `ldAddresses` — the parsed JSON-LD postal addresses. -/
structure Page where
  anchorHrefs : List String
  textEmails : List String
  sourceEmails : List String
  sectionEmails : List String
  textPhones : List String
  sectionPhones : List String
  html : String
  addressTexts : List String
  ldAddresses : List LdAddress
deriving DecidableEq

/-- The address a `mailto:` href contributes:
`href.replace('mailto:', '').split('?')[0].strip()`. -/
def mailtoEmail (href : String) : String :=
  String.mk (trimC ((replaceC ("mailto:").data href.data).takeWhile (fun c => c ≠ '?')))

/-- `WebsiteEnrichment._extract_emails`: mailto targets (validity check
only), plus pattern matches from visible text, raw markup and contact-like
sections (validity and business checks), all lower-cased and collected into
one set.  NOTE: the Python returns `list(emails)` without a `[:5]` cap. -/
def extract_emails (p : Page) : List String :=
  let mailto := p.anchorHrefs.filterMap (fun href =>
    if ("mailto:").data.isPrefixOf href.data then
      let email := mailtoEmail href
      if is_valid_email email then some (lowerStr email) else none
    else none)
  let fromText := p.textEmails.filterMap (fun e =>
    if is_valid_email e && is_business_email e then some (lowerStr e) else none)
  let fromSource := p.sourceEmails.filterMap (fun e =>
    if is_valid_email e && is_business_email e then some (lowerStr e) else none)
  let fromSections := p.sectionEmails.filterMap (fun e =>
    if is_valid_email e && is_business_email e then some (lowerStr e) else none)
  pyDedup (mailto ++ fromText ++ fromSource ++ fromSections)

/-- `WebsiteEnrichment._extract_phones`: tel: hrefs
(`href.replace('tel:', '').strip()` then `_clean_phone`), plus the phone
pattern matches from visible text and contact-like sections, each cleaned
and length-filtered, deduplicated, capped at 5. -/
def extract_phones (p : Page) : List String :=
  let tel := p.anchorHrefs.filterMap (fun href =>
    if ("tel:").data.isPrefixOf href.data then
      phoneKeep (String.mk (trimC (replaceC ("tel:").data href.data)))
    else none)
  let fromText := p.textPhones.filterMap phoneKeep
  let fromSections := p.sectionPhones.filterMap phoneKeep
  (pyDedup (tel ++ fromText ++ fromSections)).take 5

/-- `WebsiteEnrichment._extract_addresses`: address-like text blocks that
show both a street-number token and a 5-digit group (truncated to 200
characters), plus assembled JSON-LD addresses, deduplicated, capped at 3. -/
def extract_addresses (p : Page) : List String :=
  let fromTags := p.addressTexts.filterMap (fun t =>
    if hasStreetTokenC t.data && hasFiveDigitsC t.data then
      some (String.mk (t.data.take 200))
    else none)
  let fromLd := p.ldAddresses.filterMap (fun a =>
    let full := ldFullAddress a
    if full.data.isEmpty then none else some full)
  (pyDedup (fromTags ++ fromLd)).take 3

/-- Case-insensitive prefix test, for the `re.I` flag on the social
patterns. -/
def ciStarts : List Char → List Char → Bool
  | [], _ => true
  | _ :: _, [] => false
  | p :: ps, c :: cs => (p.toLower == c.toLower) && ciStarts ps cs

/-- First marker of `markers` that starts (case-insensitively) at the head
of `l`. -/
def findMarkerC (markers : List (List Char)) (l : List Char) : Option (List Char) :=
  markers.find? (fun m => ciStarts m l)

/-- `re.findall` for one social-media pattern, translated by hand: scan the
text left to right; at a position where one of the pattern's host `markers`
(e.g. `facebook.com/`) starts, optionally consume one of the optional
`skips` (e.g. `pages/` — with regex backtracking: if nothing capturable
follows the skip, retry without it), then capture the maximal non-empty run
of characters of the pattern's capture class.  Each element of the returned
list is one capture group, exactly what `re.findall` returns for a pattern
with one group; scanning resumes after the end of the match
(non-overlapping matches).  The optional `(?:https?://)?(?:www\.)?`
prefixes of the patterns never change match existence or the captured
group, so they do not appear here. -/
def scanCapturesF (markers skips : List (List Char)) (allowed : Char → Bool) :
    Nat → List Char → List (List Char)
  | 0, _ => []
  | _ + 1, [] => []
  | fuel + 1, c :: rest =>
    match findMarkerC markers (c :: rest) with
    | none => scanCapturesF markers skips allowed fuel rest
    | some m =>
      let after := (c :: rest).drop m.length
      let afterSkip :=
        match findMarkerC skips after with
        | some sk => after.drop sk.length
        | none => after
      let cap1 := afterSkip.takeWhile allowed
      if cap1.isEmpty = false then
        cap1 :: scanCapturesF markers skips allowed fuel (afterSkip.drop cap1.length)
      else
        let cap2 := after.takeWhile allowed
        if cap2.isEmpty = false then
          cap2 :: scanCapturesF markers skips allowed fuel (after.drop cap2.length)
        else
          scanCapturesF markers skips allowed fuel rest

/-- The scan of `scanCapturesF` started with enough fuel: every step of the
recursion consumes at least one character, so `l.length` steps always
finish the text. -/
def scanCaptures (markers skips : List (List Char)) (allowed : Char → Bool)
    (l : List Char) : List (List Char) :=
  scanCapturesF markers skips allowed l.length l

/-- One entry of `WebsiteEnrichment.social_patterns`: the platform key plus
the hand-translated behaviour of its compiled regex — the host `markers`
(each ending in the mandatory `/` or `/@` of the pattern), optional
`skips`, and the character class of the single capture group. -/
structure SocialPattern where
  platform : String
  markers : List String
  skips : List String
  allowed : Char → Bool

/-- `pattern.findall(s)` (list of capture-group strings). -/
def SocialPattern.findall (p : SocialPattern) (s : String) : List String :=
  (scanCaptures (p.markers.map String.data) (p.skips.map String.data) p.allowed s.data).map
    String.mk

/-- `pattern.search(s) is not None`; every mandatory part of each pattern
surrounds its capture group, so a search hit is exactly a findall hit. -/
def SocialPattern.searchHit (p : SocialPattern) (s : String) : Bool :=
  !(p.findall s).isEmpty

/-- Capture class `[a-zA-Z0-9._-]` (facebook, snapchat). -/
def allowedDotUnderDash (c : Char) : Bool :=
  c.isAlphanum || c == '.' || c == '_' || c == '-'

/-- Capture class `[a-zA-Z0-9._]` (instagram, tiktok). -/
def allowedDotUnder (c : Char) : Bool := c.isAlphanum || c == '.' || c == '_'

/-- Capture class `[a-zA-Z0-9_]` (twitter, pinterest, telegram). -/
def allowedUnder (c : Char) : Bool := c.isAlphanum || c == '_'

/-- Capture class `[a-zA-Z0-9-]` (linkedin). -/
def allowedDash (c : Char) : Bool := c.isAlphanum || c == '-'

/-- Capture class `[a-zA-Z0-9_-]` (youtube). -/
def allowedUnderDash (c : Char) : Bool := c.isAlphanum || c == '_' || c == '-'

/-- `WebsiteEnrichment.social_patterns`, in dict insertion order.  Notes on
the translation: the youtube pattern `youtube\.com/(?:channel|c|user|@)/`
requires a `/` after the alternation, so the `@` branch is the literal
`@/`; the whatsapp pattern captures `(\d+)` directly after `wa.me/` or
`api.whatsapp.com/`. -/
def social_patterns : List SocialPattern :=
  [ ⟨"facebook", ["facebook.com/", "fb.com/"], ["pages/"], allowedDotUnderDash⟩,
    ⟨"instagram", ["instagram.com/"], [], allowedDotUnder⟩,
    ⟨"twitter", ["twitter.com/", "x.com/"], [], allowedUnder⟩,
    ⟨"linkedin", ["linkedin.com/company/", "linkedin.com/in/", "linkedin.com/profile/"],
      [], allowedDash⟩,
    ⟨"youtube", ["youtube.com/channel/", "youtube.com/c/", "youtube.com/user/",
      "youtube.com/@/"], [], allowedUnderDash⟩,
    ⟨"tiktok", ["tiktok.com/@"], [], allowedDotUnder⟩,
    ⟨"pinterest", ["pinterest.com/"], [], allowedUnder⟩,
    ⟨"snapchat", ["snapchat.com/add/"], [], allowedDotUnderDash⟩,
    ⟨"whatsapp", ["wa.me/", "api.whatsapp.com/"], [], Char.isDigit⟩,
    ⟨"telegram", ["t.me/", "telegram.me/"], [], allowedUnder⟩ ]

/-- Characters up to (excluding) the first occurrence of `pat`, or all of
`l` when `pat` does not occur. -/
def takeUntilSubC (pat : List Char) : List Char → List Char
  | [] => []
  | c :: rest => if pat.isPrefixOf (c :: rest) then [] else c :: takeUntilSubC pat rest

/-- Characters after the first occurrence of `pat`, or `[]` when `pat` does
not occur. -/
def dropThroughSubC (pat : List Char) : List Char → List Char
  | [] => []
  | c :: rest =>
    if pat.isPrefixOf (c :: rest) then (c :: rest).drop pat.length
    else dropThroughSubC pat rest

/-- Scheme of an absolute URL (text before `://`). -/
def urlScheme (u : String) : String := String.mk (takeUntilSubC ("://").data u.data)

/-- Scheme plus network location of an absolute URL. -/
def urlSchemeNetloc (u : String) : String :=
  String.mk (takeUntilSubC ("://").data u.data ++ ("://").data
    ++ takeUntilSubC (("/").data) (dropThroughSubC ("://").data u.data))

/-- `urllib.parse.urljoin(base, href)` for an `href` starting with `/`, the
only case the extractor invokes: `//host/...` keeps the base's scheme,
`/path` is resolved against the base's scheme and netloc. -/
def urljoin_slash (base href : String) : String :=
  if ("//").data.isPrefixOf href.data then
    String.mk ((urlScheme base).data ++ (":").data ++ href.data)
  else
    String.mk ((urlSchemeNetloc base).data ++ href.data)

/-- First stored URL for a platform key in the accumulated social-links
association list (Python dict lookup). -/
def lookupPlat (links : List (String × String)) (pl : String) : Option String :=
  (links.find? (fun kv => kv.1 == pl)).map Prod.snd

/-- `WebsiteEnrichment._extract_social_media`.  First loop: for every
anchor href (root-relative ones resolved against `baseUrl`), try every
platform not yet stored; on a pattern hit, prefix `https://` when the
(current) href does not start with `http` — the possibly-rewritten href is
carried to the later platforms of the same anchor, as the Python loop
variable is.  Second loop: for every still-missing platform, take the first
`findall` capture from the raw markup — `matches[0]` is always a plain
string here because every pattern has exactly one group, so the tuple
branch `https://platform.com/...` of the Python conditional is dead — and
prefix `https://` when it does not start with `http`. -/
def extract_social_media (baseUrl : String) (p : Page) : List (String × String) :=
  let anchorLinks := p.anchorHrefs.foldl (fun links href0 =>
    let href1 := if ("/").data.isPrefixOf href0.data then urljoin_slash baseUrl href0 else href0
    (social_patterns.foldl (fun st pat =>
      if (lookupPlat st.2 pat.platform).isNone then
        if pat.searchHit st.1 then
          let href2 := if ("http").data.isPrefixOf st.1.data then st.1
                       else String.mk (("https://").data ++ st.1.data)
          (href2, st.2 ++ [(pat.platform, href2)])
        else st
      else st) (href1, links)).2) []
  social_patterns.foldl (fun links pat =>
    if (lookupPlat links pat.platform).isNone then
      match pat.findall p.html with
      | [] => links
      | m :: _ =>
        let url := if ("http").data.isPrefixOf m.data then m
                   else String.mk (("https://").data ++ m.data)
        links ++ [(pat.platform, url)]
    else links) anchorLinks

/-- The per-page dict built by `WebsiteEnrichment._extract_from_page`
(`emails`/`phones`/`socialMedia`/`addresses`; no `contactPageUrl` key). -/
structure PageData where
  emails : List String
  phones : List String
  socialMedia : List (String × String)
  addresses : List String
deriving DecidableEq

/-- The dict returned by `WebsiteEnrichment.enrich_from_website`. -/
structure EnrichmentResult where
  emails : List String
  phones : List String
  socialMedia : List (String × String)
  contactPageUrl : Option String
  addresses : List String
deriving DecidableEq

/-- The initial `enrichment_data` dict of `enrich_from_website`. -/
def emptyEnrichment : EnrichmentResult :=
  { emails := [], phones := [], socialMedia := [], contactPageUrl := none, addresses := [] }

/-- The initial `data` dict of `_extract_from_page`, also what a non-200
response or a fetch error leaves behind. -/
def emptyPageData : PageData :=
  { emails := [], phones := [], socialMedia := [], addresses := [] }

/-- `WebsiteEnrichment._extract_from_page`: `none` stands for a non-200
status or a network/parse failure (the inner `except` swallows it and the
empty dict is returned); on success the four extractors run on the page. -/
def extract_from_page (url : String) (fetched : Option Page) : PageData :=
  match fetched with
  | none => emptyPageData
  | some p =>
    { emails := extract_emails p
      phones := extract_phones p
      socialMedia := extract_social_media url p
      addresses := extract_addresses p }

/-- The socialMedia part of `WebsiteEnrichment._merge_data`: a platform of
the source is added only when the target does not hold it yet ("first
platform match wins"). -/
def mergeSocial (target source : List (String × String)) : List (String × String) :=
  source.foldl (fun tg kv => if (lookupPlat tg kv.1).isNone then tg ++ [kv] else tg) target

/-- `WebsiteEnrichment._merge_data` with a `_extract_from_page` source:
emails/phones/addresses are appended (multiset), social platforms are added
if absent; the source dict has no `contactPageUrl` key, so that field of
the target is untouched. -/
def merge_data (target : EnrichmentResult) (source : PageData) : EnrichmentResult :=
  { target with
      emails := target.emails ++ source.emails
      phones := target.phones ++ source.phones
      socialMedia := mergeSocial target.socialMedia source.socialMedia
      addresses := target.addresses ++ source.addresses }

/-- Step 3 of `enrich_from_website` ("Clean and deduplicate"):
`list(set(...))` then the caps — 5 emails, 5 phones, 3 addresses; the
social mapping is left as merged. -/
def finalize_enrichment (r : EnrichmentResult) : EnrichmentResult :=
  { r with
      emails := (pyDedup r.emails).take 5
      phones := (pyDedup r.phones).take 5
      addresses := (pyDedup r.addresses).take 3 }

/-- `WebsiteEnrichment.enrich_from_website`.  The network is abstracted to
two oracles: `fetch url` is the outcome of getting a page (`none` = non-200
or failure), and `contactProbe` is the outcome of `_find_contact_page`.
`websiteUrl = none` models a missing URL argument; `not website_url` is
true for both `None` and the empty string.  On a truthy URL, the main page
is extracted and merged, then (when `checkContactPage` and the probe found
a page) the `contactPageUrl` field is set and the contact page is extracted
and merged, and finally the accumulator is deduplicated and capped. -/
def enrich_from_website (fetch : String → Option Page) (contactProbe : Option String)
    (websiteUrl : Option String) (checkContactPage : Bool) : EnrichmentResult :=
  match websiteUrl with
  | none => emptyEnrichment
  | some u =>
    if u.data.isEmpty then emptyEnrichment
    else
      let acc0 := merge_data emptyEnrichment (extract_from_page u (fetch u))
      let acc1 :=
        if checkContactPage then
          match contactProbe with
          | some cu =>
            merge_data { acc0 with contactPageUrl := some cu }
              (extract_from_page cu (fetch cu))
          | none => acc0
        else acc0
      finalize_enrichment acc1

/-!  `scrapers/google_maps_optimized.py` — the discovery loop, the batched
parallel detail extraction, and the relevance score. -/

/-- State carried across iterations of the scroll loop of
`GoogleMapsScraperOptimized._search_places_optimized`: the accumulated
`place_urls` set (as a first-insertion-ordered duplicate-free list),
`scroll_attempts`, and `no_new_results_count`. -/
structure SearchState where
  urls : List String
  attempts : Nat
  noNew : Nat
deriving DecidableEq

/-- `max_scroll_attempts` of `_search_places_optimized`. -/
def maxScrollAttempts : Nat := 30

/-- One pass over the currently visible links: every href containing
`/maps/place/` is added to the set (`if href and '/maps/place/' in href`);
adding an already-present URL is a no-op. -/
def collectLinks (urls : List String) (links : List String) : List String :=
  links.foldl (fun u href =>
    if href.data.isEmpty = false ∧ isSubC ("/maps/place/").data href.data = true
        ∧ href ∉ u then
      u ++ [href]
    else u) urls

/-- The scroll loop of `_search_places_optimized`, driven by `feed i` = the
hrefs visible on iteration `i` (`i` counts completed scrolls, which is what
`scroll_attempts` holds when the iteration starts).  Guard of the `while`:
`scroll_attempts < max_scroll_attempts and len(place_urls) < max_results *
1.5` (the 1.5 factor written integrally).  Body: collect links, update the
stall counter by comparing set sizes, break when the set reached
`max_results`, break when stalled for 3 iterations, otherwise scroll
(assumed not to raise; a raising scroll only breaks the loop earlier) and
loop.  `fuel` only bounds the recursion; with `fuel > maxScrollAttempts`
the guard always stops the loop first, so the model is exact. -/
def searchLoop (feed : Nat → List String) (maxResults : Nat) :
    Nat → SearchState → SearchState
  | 0, s => s
  | fuel + 1, s =>
    if s.attempts < maxScrollAttempts ∧ 2 * s.urls.length < 3 * maxResults then
      let urls' := collectLinks s.urls (feed s.attempts)
      let noNew' := if urls'.length = s.urls.length then s.noNew + 1 else 0
      if maxResults ≤ urls'.length then
        { urls := urls', attempts := s.attempts, noNew := noNew' }
      else if 3 ≤ noNew' then
        { urls := urls', attempts := s.attempts, noNew := noNew' }
      else
        searchLoop feed maxResults fuel
          { urls := urls', attempts := s.attempts + 1, noNew := noNew' }
    else s

/-- `_search_places_optimized`: run the scroll loop from the empty state
and return the collected URL set. -/
def searchPlaces (feed : Nat → List String) (maxResults : Nat) : List String :=
  (searchLoop feed maxResults (maxScrollAttempts + 1)
    { urls := [], attempts := 0, noNew := 0 }).urls

/-- Outcome of one `_extract_place_details_optimized` task for one URL, as
seen by `asyncio.gather(..., return_exceptions=True)`: a place dict, `None`
(the task's own `except` caught a per-item error), or a propagated
exception object (e.g. a timeout escaping the task). -/
inductive ExtractOutcome (α : Type) where
  | ok (record : α)
  | noRecord
  | raised
deriving DecidableEq

/-- The record an outcome contributes: only an actual dict passes the
`isinstance(result, dict)` filter of `GoogleMapsScraperOptimized.scrape`. -/
def ExtractOutcome.record? {α : Type} : ExtractOutcome α → Option α
  | .ok r => some r
  | .noRecord => none
  | .raised => none

/-- One gather window of `scrape`: every task settles, the results come
back in task order, and only dict results are appended. -/
def processBatch {α : Type} (outcome : String → ExtractOutcome α)
    (batch : List String) : List α :=
  batch.filterMap (fun u => (outcome u).record?)

/-- The window partition `places_to_process[i:i+batch_size]` for
`i = 0, batch_size, 2*batch_size, ...` (the Python `range` step). -/
def chunksOf {α : Type} (n : Nat) : List α → List (List α)
  | [] => []
  | x :: xs => (x :: xs.take (n - 1)) :: chunksOf n (xs.drop (n - 1))
termination_by l => l.length
decreasing_by
  simp only [List.length_drop, List.length_cons]
  omega

/-- The detail-extraction part of `GoogleMapsScraperOptimized.scrape` for
one search term: truncate the discovered URLs to `max_results`, split into
windows of `batchSize` (15 in the source), gather every window and append
the dict results to `all_results` in task order. -/
def scrapeTerm {α : Type} (outcome : String → ExtractOutcome α)
    (places : List String) (maxResults batchSize : Nat) : List α :=
  (chunksOf batchSize (places.take maxResults)).foldl
    (fun acc batch => acc ++ processBatch outcome batch) []

/-- Python `round(x, 2)` on a real value (banker's rounding of floats is
not modelled; on the half-integers the claims exercise nothing differs). -/
noncomputable def round2 (x : ℝ) : ℝ := (round (x * 100) : ℤ) / 100

/-- The `totalScore` computation at the end of
`_extract_place_details_optimized`: only when both the `rating` and the
`reviewsCount` keys were parsed, `round(rating * math.log(reviewsCount + 1,
10), 2)`; float arithmetic is modelled over the reals. -/
noncomputable def totalScore (rating : Option ℝ) (reviewsCount : Option ℕ) : Option ℝ :=
  match rating, reviewsCount with
  | some r, some n => some (round2 (r * Real.logb 10 (n + 1)))
  | _, _ => none

/-! Helper lemmas. -/

theorem isSubC_iff (pat : List Char) : ∀ l : List Char, isSubC pat l = true ↔ pat <:+: l := by
  intro l
  induction l with
  | nil =>
    simp [isSubC, List.infix_nil, List.isEmpty_iff]
  | cons c rest ih =>
    simp only [isSubC, Bool.or_eq_true, List.infix_cons_iff, ih,
      List.isPrefixOf_iff_prefix]

theorem pyDedupAux_append_absorb :
    ∀ (l r seen : List String), (∀ x ∈ r, x ∈ seen ∨ x ∈ l) →
      pyDedupAux seen (l ++ r) = pyDedupAux seen l := by
  intro l
  induction l with
  | nil =>
    intro r
    induction r with
    | nil => intro seen _; rfl
    | cons x xs ih =>
      intro seen hx
      have hxs : x ∈ seen := by
        have := hx x (by simp)
        simpa using this
      simp only [List.nil_append, pyDedupAux, if_pos hxs]
      have := ih seen (fun y hy => by
        have := hx y (by simp [hy])
        simpa using this)
      simpa using this
  | cons a l ih =>
    intro r seen hr
    simp only [List.cons_append, pyDedupAux]
    by_cases ha : a ∈ seen
    · rw [if_pos ha, if_pos ha]
      exact ih r seen (fun y hy => by
        rcases hr y hy with h | h
        · exact Or.inl h
        · rcases List.mem_cons.mp h with h | h
          · exact Or.inl (h ▸ ha)
          · exact Or.inr h)
    · rw [if_neg ha, if_neg ha]
      congr 1
      exact ih r (a :: seen) (fun y hy => by
        rcases hr y hy with h | h
        · exact Or.inl (List.mem_cons_of_mem _ h)
        · rcases List.mem_cons.mp h with h | h
          · exact Or.inl (by simp [h])
          · exact Or.inr h)

theorem lookupPlat_append_of_isSome {tg : List (String × String)} {pl : String}
    (h : (lookupPlat tg pl).isSome) (xs : List (String × String)) :
    (lookupPlat (tg ++ xs) pl).isSome := by
  simp only [lookupPlat, Option.isSome_map] at *
  rw [List.find?_append]
  cases hf : tg.find? (fun kv => kv.1 == pl) with
  | none => rw [hf] at h; simp at h
  | some v => simp

theorem lookupPlat_of_none {tg : List (String × String)} {pl : String}
    (h : lookupPlat tg pl = none) : pl ∉ tg.map Prod.fst := by
  have hf : tg.find? (fun kv => kv.1 == pl) = none := by
    simp only [lookupPlat] at h
    cases hx : tg.find? (fun kv => kv.1 == pl) with
    | none => rfl
    | some v => rw [hx] at h; simp at h
  intro hm
  rcases List.mem_map.mp hm with ⟨kv, hkv, hfst⟩
  have := List.find?_eq_none.mp hf kv hkv
  simp [hfst] at this

theorem mergeSocial_keysNodup :
    ∀ (src tg : List (String × String)), (tg.map Prod.fst).Nodup →
      ((mergeSocial tg src).map Prod.fst).Nodup := by
  intro src
  induction src with
  | nil => intro tg h; exact h
  | cons kv src ih =>
    intro tg h
    simp only [mergeSocial, List.foldl_cons]
    by_cases hl : (lookupPlat tg kv.1).isNone
    · rw [if_pos hl]
      refine ih _ ?_
      have hnot : kv.1 ∉ tg.map Prod.fst :=
        lookupPlat_of_none (Option.isNone_iff_eq_none.mp hl)
      simpa [List.nodup_append] using And.intro h hnot
    · rw [if_neg hl]
      exact ih tg h

theorem mergeSocial_lookup_isSome_mono :
    ∀ (src tg : List (String × String)) (pl : String), (lookupPlat tg pl).isSome →
      (lookupPlat (mergeSocial tg src) pl).isSome := by
  intro src
  induction src with
  | nil => intro tg pl h; exact h
  | cons kv src ih =>
    intro tg pl h
    simp only [mergeSocial, List.foldl_cons]
    by_cases hl : (lookupPlat tg kv.1).isNone
    · rw [if_pos hl]
      exact ih _ pl (lookupPlat_append_of_isSome h _)
    · rw [if_neg hl]
      exact ih tg pl h

theorem mergeSocial_lookup_isSome_of_mem :
    ∀ (src tg : List (String × String)) (kv : String × String), kv ∈ src →
      (lookupPlat (mergeSocial tg src) kv.1).isSome := by
  intro src
  induction src with
  | nil => intro tg kv h; simp at h
  | cons kv0 src ih =>
    intro tg kv h
    rcases List.mem_cons.mp h with h | h
    · subst h
      simp only [mergeSocial, List.foldl_cons]
      by_cases hl : (lookupPlat tg kv.1).isNone
      · rw [if_pos hl]
        refine mergeSocial_lookup_isSome_mono src _ kv.1 ?_
        simp only [lookupPlat, Option.isSome_map]
        rw [List.find?_append]
        cases hf : tg.find? (fun p => p.1 == kv.1) with
        | none => simp [List.find?]
        | some v => simp
      · rw [if_neg hl]
        exact mergeSocial_lookup_isSome_mono src tg kv.1 (by
          cases hv : lookupPlat tg kv.1 with
          | none => rw [hv] at hl; simp at hl
          | some v => simp)
    · simp only [mergeSocial, List.foldl_cons]
      by_cases hl : (lookupPlat tg kv0.1).isNone
      · rw [if_pos hl]; exact ih _ kv h
      · rw [if_neg hl]; exact ih tg kv h

theorem mergeSocial_noop :
    ∀ (src tg : List (String × String)), (∀ kv ∈ src, (lookupPlat tg kv.1).isSome) →
      mergeSocial tg src = tg := by
  intro src
  induction src with
  | nil => intro tg _; rfl
  | cons kv src ih =>
    intro tg h
    simp only [mergeSocial, List.foldl_cons]
    have hkv := h kv (by simp)
    rw [if_neg (by simp only [Option.isNone_iff_eq_none]
                   cases hv : lookupPlat tg kv.1 with
                   | none => rw [hv] at hkv; simp at hkv
                   | some v => simp)]
    exact ih tg (fun kv' h' => h kv' (by simp [h']))

theorem keysNodup_append_absent {tg : List (String × String)} {pl u : String}
    (h : (tg.map Prod.fst).Nodup) (hn : lookupPlat tg pl = none) :
    ((tg ++ [(pl, u)]).map Prod.fst).Nodup := by
  have hnot : pl ∉ tg.map Prod.fst := lookupPlat_of_none hn
  simpa [List.nodup_append] using And.intro h hnot

theorem anchorPatFold_keysNodup (pats : List SocialPattern) :
    ∀ st : String × List (String × String), (st.2.map Prod.fst).Nodup →
      (((pats.foldl (fun st pat =>
        if (lookupPlat st.2 pat.platform).isNone then
          if pat.searchHit st.1 then
            let href2 := if ("http").data.isPrefixOf st.1.data then st.1
                         else String.mk (("https://").data ++ st.1.data)
            (href2, st.2 ++ [(pat.platform, href2)])
          else st
        else st) st).2).map Prod.fst).Nodup := by
  induction pats with
  | nil => intro st h; exact h
  | cons pat pats ih =>
    intro st h
    simp only [List.foldl_cons]
    by_cases hl : (lookupPlat st.2 pat.platform).isNone
    · by_cases hs : pat.searchHit st.1
      · rw [if_pos hl, if_pos hs]
        exact ih _ (keysNodup_append_absent h (Option.isNone_iff_eq_none.mp hl))
      · rw [if_pos hl, if_neg hs]
        exact ih st h
    · rw [if_neg hl]
      exact ih st h

theorem anchorFold_keysNodup (baseUrl : String) (hrefs : List String) :
    ∀ links : List (String × String), (links.map Prod.fst).Nodup →
      ((hrefs.foldl (fun links href0 =>
        let href1 := if ("/").data.isPrefixOf href0.data then urljoin_slash baseUrl href0
                     else href0
        (social_patterns.foldl (fun st pat =>
          if (lookupPlat st.2 pat.platform).isNone then
            if pat.searchHit st.1 then
              let href2 := if ("http").data.isPrefixOf st.1.data then st.1
                           else String.mk (("https://").data ++ st.1.data)
              (href2, st.2 ++ [(pat.platform, href2)])
            else st
          else st) (href1, links)).2) links).map Prod.fst).Nodup := by
  induction hrefs with
  | nil => intro links h; exact h
  | cons href hrefs ih =>
    intro links h
    simp only [List.foldl_cons]
    exact ih _ (anchorPatFold_keysNodup social_patterns _ h)

theorem markupFold_keysNodup (html : String) (pats : List SocialPattern) :
    ∀ links : List (String × String), (links.map Prod.fst).Nodup →
      ((pats.foldl (fun links pat =>
        if (lookupPlat links pat.platform).isNone then
          match pat.findall html with
          | [] => links
          | m :: _ =>
            let url := if ("http").data.isPrefixOf m.data then m
                       else String.mk (("https://").data ++ m.data)
            links ++ [(pat.platform, url)]
        else links) links).map Prod.fst).Nodup := by
  induction pats with
  | nil => intro links h; exact h
  | cons pat pats ih =>
    intro links h
    simp only [List.foldl_cons]
    by_cases hl : (lookupPlat links pat.platform).isNone
    · rw [if_pos hl]
      cases hf : pat.findall html with
      | nil => exact ih links h
      | cons m ms =>
        exact ih _ (keysNodup_append_absent h (Option.isNone_iff_eq_none.mp hl))
    · rw [if_neg hl]
      exact ih links h

theorem extract_social_media_keysNodup (baseUrl : String) (p : Page) :
    ((extract_social_media baseUrl p).map Prod.fst).Nodup := by
  unfold extract_social_media
  exact markupFold_keysNodup p.html social_patterns _
    (anchorFold_keysNodup baseUrl p.anchorHrefs [] (by simp))

theorem chunksOf_foldl_filterMap {α β : Type} (g : α → Option β) (n : Nat) :
    ∀ (k : Nat) (l : List α), l.length ≤ k → ∀ acc : List β,
      (chunksOf n l).foldl (fun a c => a ++ c.filterMap g) acc = acc ++ l.filterMap g := by
  intro k
  induction k with
  | zero =>
    intro l hl acc
    have : l = [] := List.eq_nil_of_length_eq_zero (Nat.le_zero.mp hl)
    subst this
    simp [chunksOf]
  | succ k ih =>
    intro l hl acc
    cases l with
    | nil => simp [chunksOf]
    | cons x xs =>
      rw [chunksOf]
      simp only [List.foldl_cons]
      rw [ih (xs.drop (n - 1)) (by
        simp only [List.length_drop]
        simp only [List.length_cons] at hl
        omega)]
      rw [List.append_assoc, ← List.filterMap_append, List.cons_append,
        List.take_append_drop]

theorem searchLoop_stall (feed : Nat → List String) (m : Nat) :
    ∀ (fuel j : Nat) (s : SearchState), 1 ≤ j →
      (∀ i, i < j → collectLinks s.urls (feed (s.attempts + i)) = s.urls) →
      3 ≤ s.noNew + j →
      (searchLoop feed m fuel s).urls = s.urls ∧
        (searchLoop feed m fuel s).attempts ≤ s.attempts + (j - 1) := by
  intro fuel
  induction fuel with
  | zero =>
    intro j s _ _ _
    simp [searchLoop]
  | succ fuel ih =>
    intro j s hj hfeed hcnt
    rw [searchLoop]
    by_cases hg : s.attempts < maxScrollAttempts ∧ 2 * s.urls.length < 3 * m
    · rw [if_pos hg]
      have h0 : collectLinks s.urls (feed (s.attempts + 0)) = s.urls := hfeed 0 hj
      rw [Nat.add_zero] at h0
      simp only [h0, eq_self_iff_true, if_true]
      by_cases hsat : m ≤ s.urls.length
      · rw [if_pos hsat]
        refine ⟨rfl, ?_⟩
        show s.attempts ≤ s.attempts + (j - 1)
        omega
      · rw [if_neg hsat]
        by_cases hst : 3 ≤ s.noNew + 1
        · rw [if_pos hst]
          refine ⟨rfl, ?_⟩
          show s.attempts ≤ s.attempts + (j - 1)
          omega
        · rw [if_neg hst]
          have hj2 : 2 ≤ j := by omega
          have hrec := ih (j - 1)
            { urls := s.urls, attempts := s.attempts + 1, noNew := s.noNew + 1 }
            (by omega)
            (by
              intro i hi
              show collectLinks s.urls (feed (s.attempts + 1 + i)) = s.urls
              have heq : s.attempts + 1 + i = s.attempts + (i + 1) := by omega
              rw [heq]
              exact hfeed (i + 1) (by omega))
            (by
              show 3 ≤ s.noNew + 1 + (j - 1)
              omega)
          refine ⟨hrec.1, ?_⟩
          have h2 : (searchLoop feed m fuel
              { urls := s.urls, attempts := s.attempts + 1, noNew := s.noNew + 1 }).attempts
                ≤ s.attempts + 1 + (j - 1 - 1) := hrec.2
          omega
    · rw [if_neg hg]
      exact ⟨rfl, by omega⟩

theorem finalize_caps_of_social (r : EnrichmentResult)
    (h : (r.socialMedia.map Prod.fst).Nodup) :
    (finalize_enrichment r).emails.length ≤ 5 ∧
      (finalize_enrichment r).phones.length ≤ 5 ∧
      (finalize_enrichment r).addresses.length ≤ 3 ∧
      ((finalize_enrichment r).socialMedia.map Prod.fst).Nodup := by
  refine ⟨?_, ?_, ?_, h⟩ <;>
    simp only [finalize_enrichment] <;>
    apply List.length_take_le

/-! The claims. -/

/-- Claim C2: in every gather window of the batch extractor, a task that
raises (or times out, which surfaces as a raised exception) yields no
record for its URL and does not prevent the sibling tasks from producing
theirs; in a window of 5 URLs where exactly task #3 fails, the other 4
records are returned, in order, and the window contributes exactly 4. -/
theorem batch_failure_isolation {α : Type} (outcome : String → ExtractOutcome α)
    (u1 u2 u3 u4 u5 : String) (d1 d2 d4 d5 : α)
    (h1 : outcome u1 = .ok d1) (h2 : outcome u2 = .ok d2)
    (h3 : outcome u3 = .raised ∨ outcome u3 = .noRecord)
    (h4 : outcome u4 = .ok d4) (h5 : outcome u5 = .ok d5) :
    processBatch outcome [u1, u2, u3, u4, u5] = [d1, d2, d4, d5] ∧
      (processBatch outcome [u1, u2, u3, u4, u5]).length = 4 := by
  rcases h3 with h3 | h3 <;> constructor <;>
    simp [processBatch, h1, h2, h3, h4, h5, ExtractOutcome.record?]

theorem batch_failure_isolation_witness :
    ((fun u => if u = "c" then ExtractOutcome.raised else ExtractOutcome.ok u) "a"
        = ExtractOutcome.ok "a") ∧
    ((fun u => if u = "c" then ExtractOutcome.raised else ExtractOutcome.ok u) "b"
        = ExtractOutcome.ok "b") ∧
    ((fun u => if u = "c" then ExtractOutcome.raised else ExtractOutcome.ok u) "c"
          = ExtractOutcome.raised ∨
      (fun u => if u = "c" then ExtractOutcome.raised else ExtractOutcome.ok u) "c"
          = ExtractOutcome.noRecord) ∧
    ((fun u => if u = "c" then ExtractOutcome.raised else ExtractOutcome.ok u) "d"
        = ExtractOutcome.ok "d") ∧
    ((fun u => if u = "c" then ExtractOutcome.raised else ExtractOutcome.ok u) "e"
        = ExtractOutcome.ok "e") ∧
    (processBatch (fun u => if u = "c" then ExtractOutcome.raised else ExtractOutcome.ok u)
        ["a", "b", "c", "d", "e"] = ["a", "b", "d", "e"] ∧
      (processBatch (fun u => if u = "c" then ExtractOutcome.raised else ExtractOutcome.ok u)
        ["a", "b", "c", "d", "e"]).length = 4) :=
  ⟨by decide, by decide, Or.inl (by decide), by decide, by decide,
    batch_failure_isolation (fun u => if u = "c" then ExtractOutcome.raised
        else ExtractOutcome.ok u)
      "a" "b" "c" "d" "e" "a" "b" "d" "e"
      (by decide) (by decide) (Or.inl (by decide)) (by decide) (by decide)⟩

/-- Claim C4: if three consecutive scroll iterations add no new unique URL,
the loop terminates — within those iterations, i.e. at most two further
scrolls happen, regardless of `targetCount` — and the returned URL set is
the set held before the stalled iterations. -/
theorem stall_termination (feed : Nat → List String) (maxResults fuel : Nat)
    (s : SearchState)
    (hfeed : ∀ i, i < 3 → collectLinks s.urls (feed (s.attempts + i)) = s.urls) :
    (searchLoop feed maxResults fuel s).urls = s.urls ∧
      (searchLoop feed maxResults fuel s).attempts ≤ s.attempts + 2 := by
  have h := searchLoop_stall feed maxResults fuel 3 s (by omega) hfeed (by omega)
  exact ⟨h.1, by have := h.2; omega⟩

theorem stall_termination_witness :
    (∀ i, i < 3 → collectLinks ([] : List String) [] = ([] : List String)) ∧
    ((searchLoop (fun _ => []) 5 31 { urls := [], attempts := 0, noNew := 0 }).urls = [] ∧
      (searchLoop (fun _ => []) 5 31
          { urls := [], attempts := 0, noNew := 0 }).attempts ≤ 0 + 2) :=
  ⟨fun _ _ => rfl,
    stall_termination (fun _ => []) 5 31 { urls := [], attempts := 0, noNew := 0 }
      (fun _ _ => rfl)⟩

/-- Claim C5: the records returned for one search term follow the input URL
order truncated to `maxResults`, with failed items omitted — the output is
exactly the `filterMap` of the first `maxResults` URLs, hence an
order-preserving subsequence of the records of the full input list; task
completion order never enters the model because `asyncio.gather` returns
results in task order. -/
theorem batch_order_preserved {α : Type} (outcome : String → ExtractOutcome α)
    (places : List String) (maxResults batchSize : Nat) :
    scrapeTerm outcome places maxResults batchSize =
      (places.take maxResults).filterMap (fun u => (outcome u).record?) ∧
    (scrapeTerm outcome places maxResults batchSize).Sublist
      (places.filterMap (fun u => (outcome u).record?)) := by
  have h := chunksOf_foldl_filterMap (fun u => (outcome u).record?) batchSize
    (places.take maxResults).length (places.take maxResults) le_rfl []
  constructor
  · unfold scrapeTerm
    simpa using h
  · unfold scrapeTerm
    rw [show (chunksOf batchSize (places.take maxResults)).foldl
        (fun acc batch => acc ++ processBatch outcome batch) [] =
        (places.take maxResults).filterMap (fun u => (outcome u).record?) by simpa using h]
    refine List.IsPrefix.sublist ⟨(places.drop maxResults).filterMap
      (fun u => (outcome u).record?), ?_⟩
    rw [← List.filterMap_append, List.take_append_drop]

/-- Claim C7: the business-email filter rejects `admin@company.com`,
`noreply@shop.io` and `test@example.com` and retains `sales@acme.io`; in
general it rejects exactly the addresses whose lower-cased form contains
one of the excluded placeholder-domain/role-account patterns or ends in
one of the five low-trust TLDs. -/
theorem business_email_filter :
    is_business_email "admin@company.com" = false ∧
    is_business_email "noreply@shop.io" = false ∧
    is_business_email "test@example.com" = false ∧
    is_business_email "sales@acme.io" = true ∧
    ∀ e : String, is_business_email e = false ↔
      ((∃ p ∈ excluded_email_patterns, p.data <:+: (lowerStr e).data) ∨
        (∃ t ∈ spam_tlds, t.data <:+ (lowerStr e).data)) := by
  refine ⟨by decide, by decide, by decide, by decide, ?_⟩
  intro e
  simp only [is_business_email]
  by_cases hA : excluded_email_patterns.any (fun p => isSubC p.data (lowerStr e).data) = true
  · rw [if_pos hA]
    simp only [eq_self_iff_true, true_iff]
    left
    rcases List.any_eq_true.mp hA with ⟨p, hp, hsub⟩
    exact ⟨p, hp, (isSubC_iff p.data (lowerStr e).data).mp hsub⟩
  · rw [if_neg hA]
    by_cases hB : spam_tlds.any (fun t => List.isSuffixOf t.data (lowerStr e).data) = true
    · rw [if_pos hB]
      simp only [eq_self_iff_true, true_iff]
      right
      rcases List.any_eq_true.mp hB with ⟨t, ht, hsuf⟩
      exact ⟨t, ht, List.isSuffixOf_iff_suffix.mp hsuf⟩
    · rw [if_neg hB]
      constructor
      · intro h; exact absurd h (by simp)
      · rintro (⟨p, hp, hsub⟩ | ⟨t, ht, hsuf⟩)
        · exact absurd (List.any_eq_true.mpr
            ⟨p, hp, (isSubC_iff p.data (lowerStr e).data).mpr hsub⟩) hA
        · exact absurd (List.any_eq_true.mpr
            ⟨t, ht, List.isSuffixOf_iff_suffix.mpr hsuf⟩) hB

/-- Claim C10: with a missing (`None`) or empty website URL,
`enrich_from_website` returns exactly the empty result — emails `[]`,
phones `[]`, socialMedia empty, contactPageUrl `None`, addresses `[]` —
and does so for every fetch oracle and every contact-probe oracle, i.e.
without any page fetch or contact-page probe influencing the result. -/
theorem empty_website_noop :
    ∀ (fetch : String → Option Page) (contactProbe : Option String)
      (checkContactPage : Bool),
      enrich_from_website fetch contactProbe none checkContactPage = emptyEnrichment ∧
      enrich_from_website fetch contactProbe (some "") checkContactPage = emptyEnrichment := by
  intro fetch contactProbe checkContactPage
  exact ⟨rfl, rfl⟩

/-- Claim C1 (counterexample): the claim asserts every result of the
single-page extraction carries at most 5 emails, but `_extract_emails`
returns `list(emails)` without a cap — a page with six anchors
`mailto:a@mail.io` … `mailto:f@mail.io` yields a single-page result with
six emails. -/
theorem enrichment_caps_cex :
    (extract_from_page "https://acme.example"
      (some
        { anchorHrefs := ["mailto:a@mail.io", "mailto:b@mail.io", "mailto:c@mail.io",
            "mailto:d@mail.io", "mailto:e@mail.io", "mailto:f@mail.io"],
          textEmails := [], sourceEmails := [], sectionEmails := [],
          textPhones := [], sectionPhones := [], html := "",
          addressTexts := [], ldAddresses := [] })).emails.length = 6 ∧
    ¬((extract_from_page "https://acme.example"
      (some
        { anchorHrefs := ["mailto:a@mail.io", "mailto:b@mail.io", "mailto:c@mail.io",
            "mailto:d@mail.io", "mailto:e@mail.io", "mailto:f@mail.io"],
          textEmails := [], sourceEmails := [], sectionEmails := [],
          textPhones := [], sectionPhones := [], html := "",
          addressTexts := [], ldAddresses := [] })).emails.length ≤ 5) := by
  decide

/-- Claim C1 (amended): the full `enrich_from_website` call always
satisfies every cardinality cap — at most 5 emails, 5 phones, 3 addresses,
and one URL per social platform — for every fetch/probe oracle; the
single-page extraction caps phones at 5, addresses at 3 and one URL per
platform, but its email list is unbounded (see the counterexample). -/
theorem enrichment_caps (fetch : String → Option Page) (contactProbe : Option String)
    (websiteUrl : Option String) (checkContactPage : Bool) (u : String)
    (pg : Option Page) :
    ((enrich_from_website fetch contactProbe websiteUrl checkContactPage).emails.length ≤ 5 ∧
      (enrich_from_website fetch contactProbe websiteUrl checkContactPage).phones.length ≤ 5 ∧
      (enrich_from_website fetch contactProbe websiteUrl
        checkContactPage).addresses.length ≤ 3 ∧
      ((enrich_from_website fetch contactProbe websiteUrl checkContactPage).socialMedia.map
        Prod.fst).Nodup) ∧
    ((extract_from_page u pg).phones.length ≤ 5 ∧
      (extract_from_page u pg).addresses.length ≤ 3 ∧
      ((extract_from_page u pg).socialMedia.map Prod.fst).Nodup) := by
  constructor
  · cases websiteUrl with
    | none =>
      simp [enrich_from_website, emptyEnrichment]
    | some w =>
      by_cases hw : w.data.isEmpty = true
      · simp [enrich_from_website, hw, emptyEnrichment]
      · simp only [enrich_from_website]
        rw [if_neg hw]
        have h0 : ((merge_data emptyEnrichment
            (extract_from_page w (fetch w))).socialMedia.map Prod.fst).Nodup := by
          simp only [merge_data, emptyEnrichment]
          exact mergeSocial_keysNodup _ [] (by simp)
        cases checkContactPage with
        | false =>
          simp only [Bool.false_eq_true, if_false]
          exact finalize_caps_of_social _ h0
        | true =>
          simp only [if_true]
          cases contactProbe with
          | none => exact finalize_caps_of_social _ h0
          | some cu =>
            refine finalize_caps_of_social _ ?_
            simp only [merge_data]
            exact mergeSocial_keysNodup _ _ h0
  · cases pg with
    | none =>
      simp [extract_from_page, emptyPageData]
    | some p =>
      refine ⟨?_, ?_, ?_⟩
      · simp only [extract_from_page, extract_phones]
        apply List.length_take_le
      · simp only [extract_from_page, extract_addresses]
        apply List.length_take_le
      · simp only [extract_from_page]
        exact extract_social_media_keysNodup u p

/-- Claim C3 (counterexample): with `targetCount = 2` and a first scroll
iteration that shows exactly two place links, the loop terminates with 2
unique URLs — strictly fewer than `1.5 × targetCount = 3` — although it is
not stalled (`noNew = 0`, the iteration did add new URLs) and not
attempts-exhausted (`attempts = 0 < 30`): the Satisfied break fires at
`targetCount`, not at `1.5 × targetCount`. -/
theorem satisfied_break_cex :
    ((searchLoop (fun i => if i = 0 then ["/maps/place/a", "/maps/place/b"]
        else ["/maps/place/c"]) 2 31
        { urls := [], attempts := 0, noNew := 0 }).urls.length = 2) ∧
    ¬(3 * 2 ≤ 2 * (searchLoop (fun i => if i = 0 then ["/maps/place/a", "/maps/place/b"]
        else ["/maps/place/c"]) 2 31
        { urls := [], attempts := 0, noNew := 0 }).urls.length) ∧
    ((searchLoop (fun i => if i = 0 then ["/maps/place/a", "/maps/place/b"]
        else ["/maps/place/c"]) 2 31
        { urls := [], attempts := 0, noNew := 0 }).noNew = 0) ∧
    ((searchLoop (fun i => if i = 0 then ["/maps/place/a", "/maps/place/b"]
        else ["/maps/place/c"]) 2 31
        { urls := [], attempts := 0, noNew := 0 }).attempts = 0) := by
  decide

/-- Claim C3 (amended): the Satisfied break fires as soon as the collected
unique-URL set reaches `targetCount` (1×): whenever the `while` guard
holds and the iteration's collection reaches `targetCount`, the loop
returns that collection without scrolling again.  The 1.5 factor appears
only in the `while` guard (`len < max_results * 1.5`) as an upper bound on
re-entering the loop, not as the satisfaction threshold. -/
theorem satisfied_break_at_target (feed : Nat → List String) (m fuel : Nat)
    (s : SearchState)
    (hg : s.attempts < maxScrollAttempts ∧ 2 * s.urls.length < 3 * m)
    (hsat : m ≤ (collectLinks s.urls (feed s.attempts)).length) :
    (searchLoop feed m (fuel + 1) s).urls = collectLinks s.urls (feed s.attempts) ∧
      (searchLoop feed m (fuel + 1) s).attempts = s.attempts := by
  simp only [searchLoop]
  rw [if_pos hg, if_pos hsat]
  exact ⟨rfl, rfl⟩

theorem satisfied_break_at_target_witness :
    ((0 < maxScrollAttempts ∧ 2 * 0 < 3 * 2) ∧
      2 ≤ (collectLinks [] ["/maps/place/a", "/maps/place/b"]).length) ∧
    ((searchLoop (fun _ => ["/maps/place/a", "/maps/place/b"]) 2 31
        { urls := [], attempts := 0, noNew := 0 }).urls =
      collectLinks [] ["/maps/place/a", "/maps/place/b"] ∧
      (searchLoop (fun _ => ["/maps/place/a", "/maps/place/b"]) 2 31
        { urls := [], attempts := 0, noNew := 0 }).attempts = 0) :=
  ⟨⟨by decide, by decide⟩,
    satisfied_break_at_target (fun _ => ["/maps/place/a", "/maps/place/b"]) 2 30
      { urls := [], attempts := 0, noNew := 0 } ⟨by decide, by decide⟩ (by decide)⟩

/-- Claim C6: `totalScore` is present exactly when both the rating and the
review count were parsed; when present it equals
`round(rating * log10(reviewsCount + 1), 2)` (float arithmetic modelled
over the reals); in particular rating 4.5 with 99 reviews scores 9.0. -/
theorem totalScore_spec :
    (∀ (ro : Option ℝ) (cnt : Option ℕ),
      (totalScore ro cnt).isSome ↔ (ro.isSome ∧ cnt.isSome)) ∧
    (∀ (r : ℝ) (n : ℕ),
      totalScore (some r) (some n) = some (round2 (r * Real.logb 10 (n + 1)))) ∧
    totalScore (some (4.5 : ℝ)) (some 99) = some 9 := by
  refine ⟨?_, fun r n => rfl, ?_⟩
  · intro ro cnt
    cases ro <;> cases cnt <;> simp [totalScore]
  · show some (round2 ((4.5 : ℝ) * Real.logb 10 ((99 : ℕ) + 1))) = some 9
    have h100 : ((99 : ℕ) : ℝ) + 1 = 100 := by norm_num
    rw [h100]
    have hlog : Real.logb 10 (100 : ℝ) = 2 := by
      rw [show (100 : ℝ) = 10 ^ (2 : ℕ) by norm_num, Real.logb_pow,
        Real.logb_self_eq_one (by norm_num)]
      norm_num
    rw [hlog]
    have h9 : round2 ((4.5 : ℝ) * 2) = 9 := by
      unfold round2
      rw [show ((4.5 : ℝ) * 2 * 100) = ((900 : ℤ) : ℝ) by norm_num, round_intCast]
      norm_num
    rw [h9]

/-- Claim C8: the raw-markup fallback of `_extract_social_media` stores
`'https://' + matches[0]`, but `matches[0]` is the capture group (the bare
profile name), not the matched profile URL: markup containing
`facebook.com/acme` (and no anchors) produces the value `https://acme`,
which does not even contain the platform host — contradicting both the
claim and the module's own docstring example
(`'facebook': 'https://facebook.com/page'`). -/
theorem social_markup_capture_bug :
    extract_social_media "https://acme-widgets.example"
      { anchorHrefs := [], textEmails := [], sourceEmails := [], sectionEmails := [],
        textPhones := [], sectionPhones := [],
        html := "Follow us at facebook.com/acme for news",
        addressTexts := [], ldAddresses := [] } =
      [("facebook", "https://acme")] ∧
    isSubC ("facebook.com").data ("https://acme").data = false := by
  decide

/-- Claim C9: merging the same single-page extraction result twice into an
accumulator and then finalizing yields exactly the same result as merging
it once and finalizing: the email/phone/address dedup is a true set union
and the socialMedia merge keeps the first platform match. -/
theorem merge_idempotent (t : EnrichmentResult) (d : PageData) :
    finalize_enrichment (merge_data (merge_data t d) d) =
      finalize_enrichment (merge_data t d) := by
  unfold finalize_enrichment merge_data
  simp only [EnrichmentResult.mk.injEq]
  refine ⟨?_, ?_, ?_, trivial, ?_⟩
  · unfold pyDedup
    rw [pyDedupAux_append_absorb (t.emails ++ d.emails) d.emails []
        (fun x hx => Or.inr (List.mem_append_right _ hx))]
  · unfold pyDedup
    rw [pyDedupAux_append_absorb (t.phones ++ d.phones) d.phones []
        (fun x hx => Or.inr (List.mem_append_right _ hx))]
  · exact mergeSocial_noop d.socialMedia _
      (fun kv hkv => mergeSocial_lookup_isSome_of_mem d.socialMedia t.socialMedia kv hkv)
  · unfold pyDedup
    rw [pyDedupAux_append_absorb (t.addresses ++ d.addresses) d.addresses []
        (fun x hx => Or.inr (List.mem_append_right _ hx))]
